import Mathlib

/-!
Verification of the reminder scheduling and webhook-delivery engine
(`src/reminders.py`): the `ReminderRepository` store (create / get /
list_reminders / acquire_due / mark_sent / record_failure / cancel), the
`ReminderDispatcher` retry/backoff policy, and the `ReminderService`
validation layer.

Timestamps (`datetime` values) are modelled as rationals (seconds on a UTC
timeline); durations (`timedelta`, float seconds) likewise.  The SQLite and
PostgreSQL backends execute the same SQL contract, so the store is modelled
once as a list of rows in table order.
-/

namespace Reminders

/-- The four values the `status` column takes: `'pending'`, `'dispatching'`,
`'sent'`, `'cancelled'`. -/
inductive Status where
  | pending
  | dispatching
  | sent
  | cancelled
  deriving DecidableEq, Repr

/-- One row of the `reminders` table, mirroring the columns created by
`_initialize_sqlite` / `_initialize_postgres` and the dataclass
`ReminderRecord` built by `_row_to_record`.  `payloadJson` holds the
serialized `payload_json` column; `_row_to_record` parses it on read. -/
structure ReminderRecord where
  id : String
  title : String
  message : String
  target_time : ℚ
  payloadJson : String
  webhook_url : String
  status : Status
  attempts : ℕ
  last_error : Option String
  created_at : ℚ
  updated_at : ℚ
  earliest_run : ℚ
  sent_at : Option ℚ
  deriving DecidableEq, Repr

/-- The durable store: the rows of the `reminders` table, in table order. -/
abbrev Store := List ReminderRecord

/-- Validated payload (`ReminderPayloadModel` after pydantic validation):
the two required string fields `to` and `message`. -/
structure Payload where
  «to» : String
  message : String
  deriving DecidableEq, Repr

/-- Validated reminder request (`ReminderRequestModel` after pydantic
validation). -/
structure ReminderRequest where
  title : String
  message : String
  target_time : ℚ
  payload : Payload
  deriving DecidableEq, Repr

/-- `json.dumps(request.payload.model_dump())` for a two-field payload whose
strings need no JSON escaping: Python emits exactly
`\x7b"to": "<to>", "message": "<message>"\x7d` (dict insertion order, default
separators). -/
def dumpsPayload (p : Payload) : String :=
  "\x7b\"to\": \"" ++ p.«to» ++ "\", \"message\": \"" ++ p.message ++ "\"\x7d"

/-- `ReminderRepository.create`: inserts one row with `status='pending'`,
`attempts=0`, `last_error=NULL`, `earliest_run=target_time`,
`created_at=updated_at=now`, `sent_at=NULL`.  The fresh `uuid4().hex` id is
passed in as `rid`.  `create` re-reads the row via `get` and returns it;
with a fresh primary key that read returns exactly the inserted row. -/
def create (req : ReminderRequest) (webhook_url : String) (now : ℚ)
    (rid : String) (s : Store) : Store × ReminderRecord :=
  let row : ReminderRecord :=
    { id := rid
      title := req.title
      message := req.message
      target_time := req.target_time
      payloadJson := dumpsPayload req.payload
      webhook_url := webhook_url
      status := Status.pending
      attempts := 0
      last_error := none
      created_at := now
      updated_at := now
      earliest_run := req.target_time
      sent_at := none }
  (s ++ [row], row)

/-- `ReminderRepository.get`: `SELECT * FROM reminders WHERE id = ?`,
first matching row or absent. -/
def get (rid : String) (s : Store) : Option ReminderRecord :=
  s.find? (fun r => decide (r.id = rid))

/-- Insertion step of sorting rows by `earliest_run` ascending
(`ORDER BY earliest_run ASC`). -/
def insertByRun (r : ReminderRecord) : List ReminderRecord → List ReminderRecord
  | [] => [r]
  | x :: xs =>
    if r.earliest_run ≤ x.earliest_run then r :: x :: xs else x :: insertByRun r xs

/-- Sort rows by `earliest_run` ascending (`ORDER BY earliest_run ASC`;
order among ties is unspecified by SQL, any stable choice is faithful). -/
def sortByRun : List ReminderRecord → List ReminderRecord
  | [] => []
  | x :: xs => insertByRun x (sortByRun xs)

/-- `ReminderRepository.list_reminders`: clamps `limit` to `1..1000`
(`max(1, min(limit, 1000))`), optionally filters by status, orders by
`earliest_run` ascending and truncates to the clamped limit. -/
def list_reminders (status : Option Status) (limit : ℕ) (s : Store) :
    List ReminderRecord :=
  let lim := max 1 (min limit 1000)
  let filtered :=
    match status with
    | none => s
    | some st => s.filter (fun r => decide (r.status = st))
  (sortByRun filtered).take lim

/-- The `WHERE status = 'pending' AND earliest_run <= now` selection of
`acquire_due`. -/
def dueFilter (now : ℚ) (s : Store) : List ReminderRecord :=
  s.filter (fun r => decide (r.status = Status.pending ∧ r.earliest_run ≤ now))

/-- One row of the claim `UPDATE reminders SET status='dispatching',
updated_at=? WHERE id = ?` that `acquire_due` runs for every selected id. -/
def claimUpdate (now : ℚ) (ids : List String) (r : ReminderRecord) :
    ReminderRecord :=
  if ids.any (fun i => decide (i = r.id)) then
    { r with status := Status.dispatching, updated_at := now }
  else r

/-- The `SELECT ... WHERE status='pending' AND earliest_run <= ? ORDER BY
earliest_run ASC LIMIT ?` of `acquire_due`, with the clamped
`limit = max(1, limit)`. -/
def selectDue (now : ℚ) (limit : ℕ) (s : Store) : List ReminderRecord :=
  (sortByRun (dueFilter now s)).take (max 1 limit)

/-- `ReminderRepository.acquire_due`: clamps `limit = max(1, limit)`, selects
up to that many rows with `status='pending'` and `earliest_run ≤ now` ordered
by `earliest_run` ascending, then (in the same transaction) updates each
selected id to `status='dispatching'`, `updated_at=now`.  Returns the rows as
fetched BEFORE the update, paired with the post-transaction store. -/
def acquire_due (now : ℚ) (limit : ℕ) (s : Store) :
    Store × List ReminderRecord :=
  (s.map (claimUpdate now ((selectDue now limit s).map (fun r => r.id))),
    selectDue now limit s)

/-- One row of `UPDATE reminders SET status='sent', sent_at=?, updated_at=?
WHERE id = ?`. -/
def sentUpdate (rid : String) (sent_at : ℚ) (r : ReminderRecord) :
    ReminderRecord :=
  if r.id = rid then
    { r with status := Status.sent, sent_at := some sent_at,
             updated_at := sent_at }
  else r

/-- `ReminderRepository.mark_sent`: `UPDATE reminders SET status='sent',
sent_at=?, updated_at=? WHERE id = ?` — no status guard, every row with the
id is updated. -/
def mark_sent (rid : String) (sent_at : ℚ) (s : Store) : Store :=
  s.map (sentUpdate rid sent_at)

/-- `error[:512]`: the stored failure description is truncated to 512
characters. -/
def truncateError (e : String) : String := e.take 512

/-- One row of the `record_failure` UPDATE. -/
def failUpdate (rid : String) (attempts : ℕ) (next_attempt : ℚ)
    (error : String) (updated_at : ℚ) (r : ReminderRecord) : ReminderRecord :=
  if r.id = rid then
    { r with status := Status.pending, earliest_run := next_attempt,
             attempts := attempts,
             last_error := some (truncateError error),
             updated_at := updated_at }
  else r

/-- `ReminderRepository.record_failure`: `UPDATE reminders SET
status='pending', earliest_run=?, attempts=?, last_error=?, updated_at=?
WHERE id = ?` — no status guard, every row with the id is updated. -/
def record_failure (rid : String) (attempts : ℕ) (next_attempt : ℚ)
    (error : String) (updated_at : ℚ) (s : Store) : Store :=
  s.map (failUpdate rid attempts next_attempt error updated_at)

/-- The `WHERE id = ? AND status IN ('pending', 'dispatching')` condition of
`cancel`. -/
def cancelHit (rid : String) (r : ReminderRecord) : Bool :=
  decide (r.id = rid ∧ (r.status = Status.pending ∨ r.status = Status.dispatching))

/-- One row of the `cancel` UPDATE: rows matching the guard get
`status='cancelled'`, `updated_at=cancelled_at`, `last_error=NULL`; all
other rows are untouched. -/
def cancelUpdate (rid : String) (cancelled_at : ℚ) (r : ReminderRecord) :
    ReminderRecord :=
  if cancelHit rid r then
    { r with status := Status.cancelled, updated_at := cancelled_at,
             last_error := none }
  else r

/-- `ReminderRepository.cancel`: `UPDATE reminders SET status='cancelled',
updated_at=?, last_error=NULL WHERE id = ? AND status IN
('pending','dispatching')`; returns `rowcount > 0`. -/
def cancel (rid : String) (cancelled_at : ℚ) (s : Store) : Store × Bool :=
  (s.map (cancelUpdate rid cancelled_at), s.any (cancelHit rid))

/-- The dispatcher retry configuration after the constructor clamps
(`ReminderDispatcher.__init__`): `retry_base = max(1.0, retry_base_seconds)`,
`retry_max = max(retry_base, retry_max_seconds)`. -/
structure DispatcherConfig where
  retry_base : ℚ
  retry_max : ℚ
  deriving DecidableEq, Repr

/-- `ReminderDispatcher.__init__` clamping of the retry parameters. -/
def mkDispatcherConfig (retry_base_seconds retry_max_seconds : ℚ) :
    DispatcherConfig :=
  let b := max 1 retry_base_seconds
  { retry_base := b, retry_max := max b retry_max_seconds }

/-- The backoff delay computed in `_process_reminder` on failure:
`min(self._retry_max, self._retry_base * (2 ** (attempts - 1)))` where
`attempts` is the new (incremented) attempt count. -/
def backoffDelay (d : DispatcherConfig) (attempts : ℕ) : ℚ :=
  min d.retry_max (d.retry_base * 2 ^ (attempts - 1))

/-- The failure branch of `ReminderDispatcher._process_reminder`: on any
delivery exception it sets `attempts = reminder.attempts + 1`,
`next_attempt = now + delay`, and calls
`record_failure(reminder.id, attempts, next_attempt, error, now)`. -/
def processFailure (d : DispatcherConfig) (r : ReminderRecord) (now : ℚ)
    (errMsg : String) (s : Store) : Store :=
  let attempts := r.attempts + 1
  let next_attempt := now + backoffDelay d attempts
  record_failure r.id attempts next_attempt errMsg now s

/-- Python `str.strip()` on the character list: drop leading and trailing
whitespace. -/
def stripChars (l : List Char) : List Char :=
  ((l.dropWhile Char.isWhitespace).reverse.dropWhile Char.isWhitespace).reverse

/-- Python `str.strip()` as used by the pydantic field validators
(`value.strip()`). -/
def stripStr (s : String) : String := String.mk (stripChars s.data)

/-- `ReminderPayloadModel` validation (pydantic): `extra="forbid"` rejects
any key other than `to` and `message`; both fields are required, stripped of
surrounding whitespace, and must be non-empty after stripping.  The raw
payload dict is modelled as its key/value pairs (string values). -/
def validatePayload (raw : List (String × String)) : Option Payload :=
  if raw.all (fun kv => decide (kv.1 = "to" ∨ kv.1 = "message")) then
    match raw.lookup "to", raw.lookup "message" with
    | some t, some m =>
      if stripStr t = "" ∨ stripStr m = "" then none
      else some { «to» := stripStr t, message := stripStr m }
    | _, _ => none
  else none

/-- `ReminderRequestModel` validation (pydantic): `title` and `message` are
stripped and must be non-empty; `payload` is validated by
`ReminderPayloadModel`.  The `target_time` timezone requirement is implicit
in the rational-timeline model (every modelled instant is an absolute UTC
point). -/
def validateRequest (title message : String) (target_time : ℚ)
    (rawPayload : List (String × String)) : Option ReminderRequest :=
  if stripStr title = "" ∨ stripStr message = "" then none
  else
    (validatePayload rawPayload).map (fun p =>
      { title := stripStr title, message := stripStr message,
        target_time := target_time, payload := p })

/-- `ReminderService.schedule_reminder` after successful pydantic validation:
`if request.target_time <= now + self._min_lead: raise ValueError` (store
untouched, modelled as `(s, none)`); otherwise `store.create` and the created
record is returned. -/
def scheduleReminder (min_lead : ℚ) (webhook_url : String)
    (req : ReminderRequest) (now : ℚ) (rid : String) (s : Store) :
    Store × Option ReminderRecord :=
  if req.target_time ≤ now + min_lead then (s, none)
  else
    let out := create req webhook_url now rid s
    (out.1, some out.2)

/-- `ReminderService.schedule_reminder` from raw inputs: pydantic
validation (`ReminderRequestModel.model_validate`) first — a validation
failure raises before the lead-time check and before any store access —
then the lead-time check and `create`. -/
def scheduleFromRaw (min_lead : ℚ) (webhook_url : String)
    (title message : String) (target_time : ℚ)
    (rawPayload : List (String × String)) (now : ℚ) (rid : String)
    (s : Store) : Store × Option ReminderRecord :=
  match validateRequest title message target_time rawPayload with
  | none => (s, none)
  | some req => scheduleReminder min_lead webhook_url req now rid s

/-- The `ReminderDispatcher._run` loop's store interactions restricted to
claims: a sequence of `acquire_due` calls (one per poll with a non-empty
result), returning the final store and the claimed batches in order. -/
def acquireRuns : List (ℚ × ℕ) → Store → Store × List (List ReminderRecord)
  | [], s => (s, [])
  | c :: rest, s =>
    let out := acquire_due c.1 c.2 s
    let next := acquireRuns rest out.1
    (next.1, out.2 :: next.2)

/-- The `"` character (JSON string delimiter). -/
def quoteChar : Char := Char.ofNat 34

/-- Reads the characters of a JSON string body up to the closing quote
(no escape processing: the strings handled here contain none); returns the
body and the remainder after the quote. -/
def takeStr : List Char → Option (List Char × List Char)
  | [] => none
  | c :: cs =>
    if c = quoteChar then some ([], cs)
    else
      match takeStr cs with
      | none => none
      | some (a, b) => some (c :: a, b)

/-- Consumes an expected literal character sequence, returning the
remainder. -/
def expectChars : List Char → List Char → Option (List Char)
  | [], s => some s
  | _ :: _, [] => none
  | e :: es, c :: cs => if c = e then expectChars es cs else none

/-- The literal frame pieces of `json.dumps(\x7b"to": t, "message": m\x7d)`:
opening `\x7b"to": "`, the separator `, "message": "` that follows the
closing quote of the first value, and the final `\x7d`. -/
def payloadHead : List Char := ("\x7b\"to\": \"").data

/-- Separator between the two serialized payload fields (after the closing
quote of the `to` value). -/
def payloadMid : List Char := (", \"message\": \"").data

/-- Closing brace of the serialized payload (after the closing quote of the
`message` value). -/
def payloadTail : List Char := ("\x7d").data

/-- `json.loads` on a serialized two-field payload, as consumed by
`_row_to_record`: parses `\x7b"to": "<t>", "message": "<m>"\x7d` back into
the payload map. -/
def parsePayload (s : String) : Option Payload :=
  (expectChars payloadHead s.data).bind (fun s1 =>
    (takeStr s1).bind (fun ts =>
      (expectChars payloadMid ts.2).bind (fun s3 =>
        (takeStr s3).bind (fun ms =>
          (expectChars payloadTail ms.2).bind (fun s5 =>
            if s5 = [] then
              some { «to» := String.mk ts.1, message := String.mk ms.1 }
            else none)))))

/-- The `payload` field of the `ReminderRecord` that `_row_to_record`
materializes from a stored row: `json.loads(row["payload_json"])`. -/
def recordPayload (r : ReminderRecord) : Option Payload :=
  parsePayload r.payloadJson

/-- Strings whose JSON serialization by `json.dumps` is verbatim as far as
the parser above is concerned: no double-quote character occurs.  (Strings
containing quotes or backslashes are escaped by `json.dumps` and unescaped
by `json.loads`; the round trip is still the identity there, but those
strings are outside this model's serializer.) -/
def plainStr (t : String) : Prop := ∀ c ∈ t.data, c ≠ quoteChar

instance (t : String) : Decidable (plainStr t) := by
  unfold plainStr; infer_instance

/-- A concrete pending reminder row, due at time 0 (used to instantiate
theorems at explicit inputs). -/
def sampleRec : ReminderRecord :=
  { id := "r1", title := "t", message := "m", target_time := 0,
    payloadJson := "", webhook_url := "w", status := Status.pending,
    attempts := 0, last_error := none, created_at := 0, updated_at := 0,
    earliest_run := 0, sent_at := none }

/-- `sampleRec` with terminal status `'cancelled'`. -/
def sampleCancelled : ReminderRecord :=
  { sampleRec with status := Status.cancelled }

/-- The image of `sampleRec` under `mark_sent` at time 1. -/
def sampleSent : ReminderRecord :=
  { sampleRec with
      status := Status.sent
      sent_at := some 1
      updated_at := 1 }

/-- A concrete validated reminder request. -/
def sampleReq : ReminderRequest :=
  { title := "t", message := "m", target_time := 5,
    payload := { «to» := "x", message := "y" } }

/-- The row `processFailure` produces from `sampleRec` at time 0 with
`retry_base = retry_max = 1` and error `"boom"`. -/
def c2sample : ReminderRecord :=
  { sampleRec with
      status := Status.pending
      earliest_run := 1
      attempts := 1
      last_error := some (truncateError "boom")
      updated_at := 0 }

/-- A pending record carrying a recorded delivery-failure description. -/
def c10sample : ReminderRecord :=
  { sampleRec with
      last_error := some "previous failure"
      attempts := 2 }

/-! ## Supporting lemmas -/

theorem mem_insertByRun {a r : ReminderRecord} {l : List ReminderRecord} :
    a ∈ insertByRun r l ↔ a = r ∨ a ∈ l := by
  induction l with
  | nil => simp [insertByRun]
  | cons x xs ih =>
    by_cases h : r.earliest_run ≤ x.earliest_run
    · simp [insertByRun, h]
    · simp only [insertByRun, if_neg h, List.mem_cons, ih]
      tauto

theorem mem_sortByRun {a : ReminderRecord} {l : List ReminderRecord} :
    a ∈ sortByRun l ↔ a ∈ l := by
  induction l with
  | nil => simp [sortByRun]
  | cons x xs ih => simp [sortByRun, mem_insertByRun, ih]

theorem pairwise_insertByRun {r : ReminderRecord} {l : List ReminderRecord}
    (hl : l.Pairwise (fun a b => a.earliest_run ≤ b.earliest_run)) :
    (insertByRun r l).Pairwise (fun a b => a.earliest_run ≤ b.earliest_run) := by
  induction l with
  | nil => simp [insertByRun]
  | cons x xs ih =>
    rcases List.pairwise_cons.mp hl with ⟨hx, hxs⟩
    by_cases h : r.earliest_run ≤ x.earliest_run
    · rw [insertByRun, if_pos h]
      refine List.pairwise_cons.mpr ⟨?_, hl⟩
      intro b hb
      rcases List.mem_cons.mp hb with rfl | hb
      · exact h
      · exact le_trans h (hx b hb)
    · rw [insertByRun, if_neg h]
      refine List.pairwise_cons.mpr ⟨?_, ih hxs⟩
      intro b hb
      rcases mem_insertByRun.mp hb with rfl | hb
      · exact le_of_not_le h
      · exact hx b hb

theorem pairwise_sortByRun (l : List ReminderRecord) :
    (sortByRun l).Pairwise (fun a b => a.earliest_run ≤ b.earliest_run) := by
  induction l with
  | nil => simp [sortByRun]
  | cons x xs ih => exact pairwise_insertByRun ih

theorem mem_selectDue {now : ℚ} {limit : ℕ} {s : Store} {r : ReminderRecord}
    (hr : r ∈ selectDue now limit s) :
    r ∈ s ∧ r.status = Status.pending ∧ r.earliest_run ≤ now := by
  have h1 : r ∈ sortByRun (dueFilter now s) :=
    List.take_subset _ _ hr
  have h2 : r ∈ dueFilter now s := mem_sortByRun.mp h1
  have h3 := List.mem_filter.mp h2
  refine ⟨h3.1, ?_⟩
  simpa using of_decide_eq_true h3.2

theorem claimUpdate_not_selected {now : ℚ} {ids : List String}
    {r : ReminderRecord} (h : r.id ∉ ids) : claimUpdate now ids r = r := by
  rw [claimUpdate, if_neg]
  simp only [List.any_eq_true, decide_eq_true_eq, not_exists]
  rintro x ⟨hx, rfl⟩
  exact h hx

theorem claimUpdate_selected {now : ℚ} {ids : List String}
    {r : ReminderRecord} (h : r.id ∈ ids) :
    claimUpdate now ids r =
      { r with status := Status.dispatching, updated_at := now } := by
  rw [claimUpdate, if_pos]
  simp only [List.any_eq_true, decide_eq_true_eq]
  exact ⟨r.id, h, rfl⟩

theorem sentUpdate_hit {rid : String} {t : ℚ} {r : ReminderRecord}
    (h : r.id = rid) :
    sentUpdate rid t r =
      { r with status := Status.sent, sent_at := some t, updated_at := t } := by
  rw [sentUpdate, if_pos h]

theorem sentUpdate_miss {rid : String} {t : ℚ} {r : ReminderRecord}
    (h : ¬ r.id = rid) : sentUpdate rid t r = r := by
  rw [sentUpdate, if_neg h]

theorem failUpdate_hit {rid : String} {attempts : ℕ} {next_attempt : ℚ}
    {error : String} {updated_at : ℚ} {r : ReminderRecord} (h : r.id = rid) :
    failUpdate rid attempts next_attempt error updated_at r =
      { r with status := Status.pending, earliest_run := next_attempt,
               attempts := attempts,
               last_error := some (truncateError error),
               updated_at := updated_at } := by
  rw [failUpdate, if_pos h]

theorem failUpdate_miss {rid : String} {attempts : ℕ} {next_attempt : ℚ}
    {error : String} {updated_at : ℚ} {r : ReminderRecord}
    (h : ¬ r.id = rid) :
    failUpdate rid attempts next_attempt error updated_at r = r := by
  rw [failUpdate, if_neg h]

theorem cancelUpdate_hit {rid : String} {t : ℚ} {r : ReminderRecord}
    (h : cancelHit rid r = true) :
    cancelUpdate rid t r =
      { r with status := Status.cancelled, updated_at := t,
               last_error := none } := by
  rw [cancelUpdate, if_pos h]

theorem cancelUpdate_miss {rid : String} {t : ℚ} {r : ReminderRecord}
    (h : cancelHit rid r = false) : cancelUpdate rid t r = r := by
  rw [cancelUpdate, if_neg (by simp [h])]

theorem cancelHit_terminal {rid : String} {r : ReminderRecord}
    (hterm : r.status = Status.sent ∨ r.status = Status.cancelled) :
    cancelHit rid r = false := by
  rcases hterm with h | h <;> simp [cancelHit, h]

theorem claimUpdate_id (now : ℚ) (ids : List String) (r : ReminderRecord) :
    (claimUpdate now ids r).id = r.id := by
  rw [claimUpdate]
  split <;> rfl

theorem sentUpdate_id (rid : String) (t : ℚ) (r : ReminderRecord) :
    (sentUpdate rid t r).id = r.id := by
  rw [sentUpdate]
  split <;> rfl

theorem mem_list_reminders {st : Option Status} {lim : ℕ} {s : Store}
    {r : ReminderRecord} (h : r ∈ list_reminders st lim s) : r ∈ s := by
  cases st with
  | none => exact mem_sortByRun.mp (List.take_subset _ _ h)
  | some x =>
    have h2 : r ∈ List.filter (fun r => decide (r.status = x)) s :=
      mem_sortByRun.mp (List.take_subset _ _ h)
    exact (List.mem_filter.mp h2).1

theorem expectChars_append (pre rest : List Char) :
    expectChars pre (pre ++ rest) = some rest := by
  induction pre with
  | nil => rfl
  | cons c cs ih => simp [expectChars, ih]

theorem takeStr_append {t : List Char} (h : ∀ c ∈ t, c ≠ quoteChar)
    (rest : List Char) :
    takeStr (t ++ (quoteChar :: rest)) = some (t, rest) := by
  induction t with
  | nil => simp [takeStr]
  | cons c cs ih =>
    have hc : c ≠ quoteChar := h c (List.mem_cons_self c cs)
    have ih' := ih (fun d hd => h d (List.mem_cons_of_mem _ hd))
    simp [takeStr, hc, ih']

theorem dumpsPayload_decomp (p : Payload) :
    (dumpsPayload p).data =
      payloadHead ++ (p.«to».data ++ (quoteChar ::
        (payloadMid ++ (p.message.data ++ (quoteChar :: payloadTail))))) := by
  have h1 : ("\", \"message\": \"" : String).data = quoteChar :: payloadMid := by
    decide
  have h2 : ("\"\x7d" : String).data = quoteChar :: payloadTail := by decide
  have h0 : ("\x7b\"to\": \"" : String).data = payloadHead := rfl
  rw [dumpsPayload, String.data_append, String.data_append,
    String.data_append, String.data_append, h0, h1, h2]
  simp only [List.append_assoc, List.cons_append]

theorem parse_dumps (p : Payload) (hto : plainStr p.«to»)
    (hmsg : plainStr p.message) :
    parsePayload (dumpsPayload p) = some p := by
  have h3 : expectChars payloadTail payloadTail = some [] := by
    simpa using expectChars_append payloadTail []
  rw [parsePayload, dumpsPayload_decomp p, expectChars_append,
    Option.some_bind, takeStr_append hto, Option.some_bind]
  rw [show ((p.«to».data, payloadMid ++
      (p.message.data ++ (quoteChar :: payloadTail))).2) =
      payloadMid ++ (p.message.data ++ (quoteChar :: payloadTail)) from rfl,
    expectChars_append, Option.some_bind, takeStr_append hmsg,
    Option.some_bind]
  rw [show ((p.message.data, payloadTail).2 : List Char) = payloadTail from
    rfl, h3, Option.some_bind, if_pos rfl]

theorem acquire_due_sent_invariant {rid : String} {s : Store}
    (hs : ∀ r ∈ s, r.id = rid → r.status = Status.sent) (now : ℚ)
    (limit : ℕ) :
    (∀ r ∈ (acquire_due now limit s).2, r.id ≠ rid) ∧
    (∀ r ∈ (acquire_due now limit s).1, r.id = rid →
      r.status = Status.sent) := by
  constructor
  · intro r hr hid
    have h := mem_selectDue hr
    have hsent := hs r h.1 hid
    rw [h.2.1] at hsent
    exact Status.noConfusion hsent
  · intro r' hr' hid
    rcases List.mem_map.mp hr' with ⟨b, hbs, rfl⟩
    rw [claimUpdate_id] at hid
    have hmem : b.id ∉ (selectDue now limit s).map (fun r => r.id) := by
      intro hmem
      rcases List.mem_map.mp hmem with ⟨c, hcsel, hcid⟩
      have hcs := mem_selectDue hcsel
      have hsent := hs c hcs.1 (hcid.trans hid)
      rw [hcs.2.1] at hsent
      exact Status.noConfusion hsent
    rw [claimUpdate_not_selected hmem]
    exact hs b hbs hid

theorem acquireRuns_sent_invariant {rid : String} (calls : List (ℚ × ℕ))
    {s : Store} (hs : ∀ r ∈ s, r.id = rid → r.status = Status.sent) :
    ∀ batch ∈ (acquireRuns calls s).2, ∀ r ∈ batch, r.id ≠ rid := by
  induction calls generalizing s with
  | nil =>
    intro batch hb
    simp [acquireRuns] at hb
  | cons c rest ih =>
    intro batch hb
    rw [acquireRuns] at hb
    rcases List.mem_cons.mp hb with rfl | hb
    · exact (acquire_due_sent_invariant hs c.1 c.2).1
    · exact ih (acquire_due_sent_invariant hs c.1 c.2).2 batch hb

/-! ## Claim theorems -/

/-- C1, amended: `acquire_due(now, limit)` returns at most `max(1, limit)`
reminders (the code clamps `limit = max(1, limit)`, so `limit = 0` still
claims one row); each returned reminder is a pre-state row with status
`'pending'` and `earliest_run ≤ now`; the batch is ordered by `earliest_run`
ascending; in the post-state every row with a returned id has status
`'dispatching'` (updated in the same transaction); and every pre-state row
that was not selected is unchanged in the post-state. -/
theorem c1_acquire_due_spec (now : ℚ) (limit : ℕ) (s : Store)
    (hids : (s.map (fun r => r.id)).Nodup) :
    (acquire_due now limit s).2.length ≤ max 1 limit ∧
    (∀ r ∈ (acquire_due now limit s).2,
      r ∈ s ∧ r.status = Status.pending ∧ r.earliest_run ≤ now) ∧
    (acquire_due now limit s).2.Pairwise
      (fun a b => a.earliest_run ≤ b.earliest_run) ∧
    (∀ r' ∈ (acquire_due now limit s).1,
      r'.id ∈ (acquire_due now limit s).2.map (fun r => r.id) →
        r'.status = Status.dispatching ∧ r'.updated_at = now) ∧
    (∀ r ∈ s, r ∉ (acquire_due now limit s).2 →
      r ∈ (acquire_due now limit s).1) := by
  refine ⟨?_, ?_, ?_, ?_, ?_⟩
  · show ((sortByRun (dueFilter now s)).take (max 1 limit)).length ≤ max 1 limit
    rw [List.length_take]
    exact min_le_left _ _
  · intro r hr
    exact mem_selectDue hr
  · show ((sortByRun (dueFilter now s)).take (max 1 limit)).Pairwise _
    exact (pairwise_sortByRun _).sublist (List.take_sublist _ _)
  · intro r' hr' hid
    rcases List.mem_map.mp hr' with ⟨r, hrs, rfl⟩
    by_cases hmem : r.id ∈ (selectDue now limit s).map (fun r => r.id)
    · rw [claimUpdate_selected hmem]
      exact ⟨rfl, rfl⟩
    · rw [claimUpdate_not_selected hmem] at hid
      exact absurd hid hmem
  · intro r hrs hnot
    have hid : r.id ∉ (selectDue now limit s).map (fun r => r.id) := by
      intro hmem
      rcases List.mem_map.mp hmem with ⟨b, hbsel, hbid⟩
      have hbs : b ∈ s := (mem_selectDue hbsel).1
      have hbr : b = r := List.inj_on_of_nodup_map hids hbs hrs hbid
      exact hnot (hbr ▸ hbsel)
    exact List.mem_map.mpr ⟨r, hrs, claimUpdate_not_selected hid⟩

/-- C1 counterexample: at `limit = 0` the claim's bound "at most `limit`
reminders" fails — the code clamps the limit to 1 and claims one due
reminder. -/
theorem c1_limit_zero_cex :
    ¬ ((acquire_due 0 0 [sampleRec]).2.length ≤ 0) := by decide

/-- C1 witness: the amended theorem applied to a one-row store. -/
theorem c1_acquire_due_spec_witness :
    ((List.map (fun r => r.id) [sampleRec]).Nodup) ∧
    (acquire_due 0 3 [sampleRec]).2.length ≤ max 1 3 :=
  ⟨by decide, (c1_acquire_due_spec 0 3 [sampleRec] (by decide)).1⟩

/-- C9: the `ReminderRecord` snapshots returned by `acquire_due` are the
rows as fetched before the claim update — each returned record is a
pre-state row (hence carries the pre-claim `updated_at` and every other
pre-claim field) with status `'pending'`, while in the post-state store
every row with a returned id holds status `'dispatching'` and
`updated_at = now`. -/
theorem c9_acquire_due_snapshots (now : ℚ) (limit : ℕ) (s : Store) :
    (∀ r ∈ (acquire_due now limit s).2,
      r ∈ s ∧ r.status = Status.pending) ∧
    (∀ r' ∈ (acquire_due now limit s).1,
      r'.id ∈ (acquire_due now limit s).2.map (fun r => r.id) →
        r'.status = Status.dispatching ∧ r'.updated_at = now) := by
  constructor
  · intro r hr
    exact ⟨(mem_selectDue hr).1, (mem_selectDue hr).2.1⟩
  · intro r' hr' hid
    rcases List.mem_map.mp hr' with ⟨r, hrs, rfl⟩
    by_cases hmem : r.id ∈ (selectDue now limit s).map (fun r => r.id)
    · rw [claimUpdate_selected hmem]
      exact ⟨rfl, rfl⟩
    · rw [claimUpdate_not_selected hmem] at hid
      exact absurd hid hmem

/-- C9 witness: the snapshot theorem applied to a one-row store. -/
theorem c9_acquire_due_snapshots_witness :
    sampleRec ∈ (acquire_due 0 1 [sampleRec]).2 ∧
    (sampleRec ∈ [sampleRec] ∧ sampleRec.status = Status.pending) :=
  ⟨by decide, (c9_acquire_due_snapshots 0 1 [sampleRec]).1 sampleRec (by decide)⟩

/-- C2: when delivery of a claimed reminder with previous attempt count
`a = r.attempts` fails, `_process_reminder` records (via `record_failure`)
`attempts = a + 1`, `status = 'pending'`, and
`earliest_run = now + min(retry_max, retry_base * 2^a)` — the code computes
`min(retry_max, retry_base * 2^(attempts-1))` with the incremented
`attempts`, which equals `retry_base * 2^a`; and whenever
`retry_base * 2^a ≥ retry_max` the recorded delay saturates at exactly
`retry_max`. -/
theorem c2_backoff_spec (d : DispatcherConfig) (r : ReminderRecord)
    (now : ℚ) (err : String) (s : Store) :
    (∀ r' ∈ processFailure d r now err s, r'.id = r.id →
      r'.attempts = r.attempts + 1 ∧
      r'.earliest_run = now + min d.retry_max (d.retry_base * 2 ^ r.attempts) ∧
      r'.status = Status.pending) ∧
    (d.retry_max ≤ d.retry_base * 2 ^ r.attempts →
      ∀ r' ∈ processFailure d r now err s, r'.id = r.id →
        r'.earliest_run = now + d.retry_max) := by
  have hdelay : backoffDelay d (r.attempts + 1) =
      min d.retry_max (d.retry_base * 2 ^ r.attempts) := by
    rw [backoffDelay, Nat.add_sub_cancel]
  have main : ∀ r' ∈ processFailure d r now err s, r'.id = r.id →
      r'.attempts = r.attempts + 1 ∧
      r'.earliest_run = now + min d.retry_max (d.retry_base * 2 ^ r.attempts) ∧
      r'.status = Status.pending := by
    intro r' hr' hid
    rcases List.mem_map.mp hr' with ⟨b, hbs, rfl⟩
    by_cases hb : b.id = r.id
    · rw [failUpdate_hit hb]
      exact ⟨rfl, by rw [hdelay], rfl⟩
    · rw [failUpdate_miss hb] at hid
      exact absurd hid hb
  refine ⟨main, fun hsat r' hr' hid => ?_⟩
  rw [(main r' hr' hid).2.1, min_eq_left hsat]

/-- C2 witness: the backoff theorem applied to a concrete failure
(`retry_base = retry_max = 1`, previous attempts 0): `attempts` becomes 1 and
`earliest_run` lands at `now + min(retry_max, retry_base * 2^0)`. -/
theorem c2_backoff_spec_witness :
    c2sample.attempts = sampleRec.attempts + 1 ∧
    c2sample.earliest_run = 0 + min (1 : ℚ) (1 * 2 ^ sampleRec.attempts) ∧
    c2sample.status = Status.pending := by
  have hmem : c2sample ∈
      processFailure { retry_base := 1, retry_max := 1 } sampleRec 0 "boom"
        [sampleRec] := by
    refine List.mem_singleton.mpr ?_
    rw [failUpdate_hit rfl]
    norm_num [c2sample, sampleRec, backoffDelay]
  exact (c2_backoff_spec { retry_base := 1, retry_max := 1 } sampleRec 0
    "boom" [sampleRec]).1 c2sample hmem rfl

/-- C3 counterexample: `mark_sent` carries no status guard
(`UPDATE ... WHERE id = ?`), so invoked on a `'cancelled'` record it mutates
it — the stored terminal record is not immutable under all store
operations. -/
theorem c3_terminal_mutable_cex :
    mark_sent "r1" 1 [sampleCancelled] ≠ [sampleCancelled] ∧
    sampleCancelled.status = Status.cancelled := by
  constructor
  · decide
  · rfl

/-- C3, amended: `cancel` and `acquire_due` never modify a record whose
status is `'sent'` or `'cancelled'` (their SQL guards exclude terminal
rows), but `mark_sent` and `record_failure` update unconditionally by id and
do modify a terminal record when invoked on its id (see the
counterexample); terminal immutability holds only for the guarded
operations. -/
theorem c3_terminal_immutable_amended (s : Store) (rid : String) (t now : ℚ)
    (limit : ℕ) (r : ReminderRecord)
    (hids : (s.map (fun r => r.id)).Nodup) (hr : r ∈ s)
    (hterm : r.status = Status.sent ∨ r.status = Status.cancelled) :
    r ∈ (cancel rid t s).1 ∧ r ∈ (acquire_due now limit s).1 := by
  constructor
  · exact List.mem_map.mpr ⟨r, hr, cancelUpdate_miss (cancelHit_terminal hterm)⟩
  · have hid : r.id ∉ (selectDue now limit s).map (fun r => r.id) := by
      intro hmem
      rcases List.mem_map.mp hmem with ⟨b, hbsel, hbid⟩
      have hbs : b ∈ s := (mem_selectDue hbsel).1
      have hbr : b = r := List.inj_on_of_nodup_map hids hbs hr hbid
      have hpend : r.status = Status.pending := hbr ▸ (mem_selectDue hbsel).2.1
      rcases hterm with h | h <;> rw [h] at hpend <;> exact Status.noConfusion hpend
    exact List.mem_map.mpr ⟨r, hr, claimUpdate_not_selected hid⟩

/-- C3 witness: the amended theorem applied to a store holding one
cancelled record. -/
theorem c3_terminal_immutable_amended_witness :
    sampleCancelled ∈ (cancel "r1" 2 [sampleCancelled]).1 ∧
    sampleCancelled ∈ (acquire_due 0 1 [sampleCancelled]).1 :=
  c3_terminal_immutable_amended [sampleCancelled] "r1" 2 0 1 sampleCancelled
    (by decide) (by decide) (Or.inr rfl)

/-- C5: `cancel(id, cancelled_at)` returns true exactly when some stored
record has that id with status `'pending'` or `'dispatching'`; when it
returns false (absent id or already-terminal record) no record is altered;
and every matching pending/dispatching record transitions to `'cancelled'`.
The operation is a total function — it never raises for an already-terminal
id. -/
theorem c5_cancel_spec (rid : String) (t : ℚ) (s : Store) :
    ((cancel rid t s).2 = true ↔
      ∃ r ∈ s, r.id = rid ∧
        (r.status = Status.pending ∨ r.status = Status.dispatching)) ∧
    ((cancel rid t s).2 = false → (cancel rid t s).1 = s) ∧
    (∀ r ∈ s, r.id = rid →
      (r.status = Status.pending ∨ r.status = Status.dispatching) →
      ({ r with status := Status.cancelled, updated_at := t,
                last_error := none } : ReminderRecord) ∈ (cancel rid t s).1) := by
  refine ⟨?_, ?_, ?_⟩
  · show s.any (cancelHit rid) = true ↔ _
    rw [List.any_eq_true]
    constructor
    · rintro ⟨r, hr, hhit⟩
      exact ⟨r, hr, of_decide_eq_true hhit⟩
    · rintro ⟨r, hr, h⟩
      exact ⟨r, hr, decide_eq_true h⟩
  · intro hfalse
    show s.map (cancelUpdate rid t) = s
    have hmiss : ∀ r ∈ s, cancelUpdate rid t r = r := by
      intro r hr
      apply cancelUpdate_miss
      by_contra hne
      have htrue : cancelHit rid r = true := by
        cases h : cancelHit rid r
        · exact absurd h hne
        · rfl
      have : (cancel rid t s).2 = true :=
        List.any_eq_true.mpr ⟨r, hr, htrue⟩
      rw [hfalse] at this
      exact Bool.false_ne_true this
    calc s.map (cancelUpdate rid t) = s.map id := List.map_congr_left hmiss
      _ = s := List.map_id s
  · intro r hr hid hst
    exact List.mem_map.mpr ⟨r, hr, cancelUpdate_hit (decide_eq_true ⟨hid, hst⟩)⟩

/-- C5 witness: cancelling a pending record returns true and the cancelled
record is stored. -/
theorem c5_cancel_spec_witness :
    (cancel "r1" 2 [sampleRec]).2 = true ∧
    ({ sampleRec with
         status := Status.cancelled
         updated_at := 2
         last_error := none } : ReminderRecord) ∈ (cancel "r1" 2 [sampleRec]).1 :=
  ⟨(c5_cancel_spec "r1" 2 [sampleRec]).1.mpr
      ⟨sampleRec, List.mem_singleton.mpr rfl, rfl, Or.inl rfl⟩,
    (c5_cancel_spec "r1" 2 [sampleRec]).2.2 sampleRec
      (List.mem_singleton.mpr rfl) rfl (Or.inl rfl)⟩

/-- C10: a successful `cancel` rewrites exactly `status` (to `'cancelled'`),
`updated_at` (to `cancelled_at`) and `last_error` (to NULL, erasing any
recorded failure description) on the matching pending/dispatching record;
the record-update expression leaves `id`, `title`, `message`, `payload_json`,
`webhook_url`, `target_time`, `earliest_run`, `attempts`, `created_at` and
`sent_at` untouched, and rows outside the guard are unchanged. -/
theorem c10_cancel_frame (rid : String) (t : ℚ) (s : Store) :
    ∀ r ∈ s,
      (cancelHit rid r = true →
        ({ r with status := Status.cancelled, updated_at := t,
                  last_error := none } : ReminderRecord) ∈ (cancel rid t s).1) ∧
      (cancelHit rid r = false → r ∈ (cancel rid t s).1) := by
  intro r hr
  exact ⟨fun h => List.mem_map.mpr ⟨r, hr, cancelUpdate_hit h⟩,
         fun h => List.mem_map.mpr ⟨r, hr, cancelUpdate_miss h⟩⟩

/-- C4, amended: `schedule_reminder` rejects — raising before any store
access, leaving the store unchanged — exactly when
`target_time ≤ now + min_lead` (the code's check
`request.target_time <= now + self._min_lead` is non-strict, so a request
with `target_time` exactly `now + min_lead` IS rejected, contrary to the
original claim); every request with `target_time > now + min_lead` passes
the lead-time check and reaches `store.create`. -/
theorem c4_lead_time_spec (lead : ℚ) (wurl : String) (req : ReminderRequest)
    (now : ℚ) (rid : String) (s : Store) :
    (req.target_time ≤ now + lead →
      scheduleReminder lead wurl req now rid s = (s, none)) ∧
    (now + lead < req.target_time →
      scheduleReminder lead wurl req now rid s =
        ((create req wurl now rid s).1, some (create req wurl now rid s).2)) := by
  constructor
  · intro h
    rw [scheduleReminder, if_pos h]
  · intro h
    rw [scheduleReminder, if_neg (not_le.mpr h)]

/-- C4 counterexample: a request whose `target_time` equals exactly
`now + min_lead` (here `5 = 0 + 5`) is rejected and never reaches the
store, falsifying the claim that such a request "passes the lead-time check
and reaches the store". -/
theorem c4_boundary_cex :
    sampleReq.target_time = 0 + (5 : ℚ) ∧
    scheduleReminder 5 "w" sampleReq 0 "rid" [] = ([], none) := by
  constructor
  · norm_num [sampleReq]
  · rw [scheduleReminder, if_pos (by norm_num [sampleReq])]

/-- C4 witness: the amended theorem applied on both sides of the strict
boundary. -/
theorem c4_lead_time_spec_witness :
    scheduleReminder 5 "w" sampleReq 0 "rid" [] = ([], none) ∧
    scheduleReminder 5 "w" { sampleReq with target_time := 100 } 0 "rid" [] =
      ((create { sampleReq with target_time := 100 } "w" 0 "rid" []).1,
        some (create { sampleReq with target_time := 100 } "w" 0 "rid" []).2) :=
  ⟨(c4_lead_time_spec 5 "w" sampleReq 0 "rid" []).1 (by norm_num [sampleReq]),
    (c4_lead_time_spec 5 "w" { sampleReq with target_time := 100 } 0 "rid"
        []).2 (by norm_num [sampleReq])⟩

/-- C6: after `mark_sent(id, sent_at)` every stored row with that id has
`status = 'sent'` and `sent_at` set to the given instant (and such a row
exists when the id was present), and no later sequence of `acquire_due`
calls — at any times and limits — ever returns that id: `acquire_due`
selects only `'pending'` rows and never changes a `'sent'` row. -/
theorem c6_mark_sent_spec (rid : String) (t : ℚ) (s : Store)
    (calls : List (ℚ × ℕ)) (hex : ∃ r ∈ s, r.id = rid) :
    (∃ r' ∈ mark_sent rid t s, r'.id = rid) ∧
    (∀ r' ∈ mark_sent rid t s, r'.id = rid →
      r'.status = Status.sent ∧ r'.sent_at = some t) ∧
    (∀ batch ∈ (acquireRuns calls (mark_sent rid t s)).2,
      ∀ r ∈ batch, r.id ≠ rid) := by
  have hsent : ∀ r' ∈ mark_sent rid t s, r'.id = rid →
      r'.status = Status.sent ∧ r'.sent_at = some t := by
    intro r' hr' hid
    rcases List.mem_map.mp hr' with ⟨b, hbs, rfl⟩
    rw [sentUpdate_id] at hid
    rw [sentUpdate_hit hid]
    exact ⟨rfl, rfl⟩
  refine ⟨?_, hsent, ?_⟩
  · rcases hex with ⟨r, hr, hid⟩
    exact ⟨sentUpdate rid t r, List.mem_map.mpr ⟨r, hr, rfl⟩,
      (sentUpdate_id rid t r).trans hid⟩
  · exact acquireRuns_sent_invariant calls
      (fun r' hr' hid => (hsent r' hr' hid).1)

/-- C6 witness: marking the one pending record sent; the sent row is stored
with `sent_at` set, and an `acquire_due` at a much later time returns
nothing with its id. -/
theorem c6_mark_sent_spec_witness :
    sampleSent ∈ mark_sent "r1" 1 [sampleRec] ∧
    sampleSent.status = Status.sent ∧ sampleSent.sent_at = some 1 := by
  have h := (c6_mark_sent_spec "r1" 1 [sampleRec] [(100, 5)]
    ⟨sampleRec, List.mem_singleton.mpr rfl, rfl⟩).2.1
  have hm : sampleSent ∈ mark_sent "r1" 1 [sampleRec] := by decide
  exact ⟨hm, h sampleSent hm rfl⟩

/-- C7: a reminder created with a payload map `\x7bto, message\x7d` (fields
free of characters `json.dumps` escapes) and fetched back through `get` or
`list_reminders` reproduces the identical payload map:
`create` stores `json.dumps` of the payload and `_row_to_record` applies
`json.loads`, and the composition is the identity. -/
theorem c7_payload_roundtrip (req : ReminderRequest) (wurl : String)
    (now : ℚ) (rid : String) (s : Store)
    (hto : plainStr req.payload.«to») (hmsg : plainStr req.payload.message)
    (hfresh : ∀ r ∈ s, r.id ≠ rid) :
    get rid (create req wurl now rid s).1 =
      some (create req wurl now rid s).2 ∧
    recordPayload (create req wurl now rid s).2 = some req.payload ∧
    (∀ (st : Option Status) (lim : ℕ),
      ∀ r' ∈ list_reminders st lim (create req wurl now rid s).1,
        r'.id = rid → recordPayload r' = some req.payload) := by
  have hparse : recordPayload (create req wurl now rid s).2 =
      some req.payload := parse_dumps req.payload hto hmsg
  refine ⟨?_, hparse, ?_⟩
  · show (s ++ [(create req wurl now rid s).2]).find?
      (fun r => decide (r.id = rid)) = _
    rw [List.find?_append]
    have hnone : s.find? (fun r => decide (r.id = rid)) = none := by
      rw [List.find?_eq_none]
      intro r hr
      simpa using hfresh r hr
    rw [hnone]
    simp [List.find?, create]
  · intro st lim r' hr' hid
    have hmem : r' ∈ s ++ [(create req wurl now rid s).2] :=
      mem_list_reminders hr'
    rcases List.mem_append.mp hmem with hin | hin
    · exact absurd hid (hfresh r' hin)
    · rw [List.mem_singleton.mp hin]
      exact hparse

/-- C7 witness: the round trip evaluated for the concrete payload
`\x7b"to": "x", "message": "y"\x7d`. -/
theorem c7_payload_roundtrip_witness :
    get "rid" (create sampleReq "w" 0 "rid" []).1 =
      some (create sampleReq "w" 0 "rid" []).2 ∧
    recordPayload (create sampleReq "w" 0 "rid" []).2 =
      some sampleReq.payload := by
  have h := c7_payload_roundtrip sampleReq "w" 0 "rid" [] (by decide)
    (by decide) (by simp)
  exact ⟨h.1, h.2.1⟩

/-- C8 counterexample: a payload containing an additional field beyond `to`
and `message` is rejected by validation (`extra="forbid"`), and the
surrounding `schedule_reminder` call fails without creating any record even
though the target time is far in the future — falsifying "accepts the
payload regardless of any additional fields". -/
theorem c8_extra_field_cex :
    validatePayload [("to", "x"), ("message", "y"), ("extra", "z")] = none ∧
    scheduleFromRaw 0 "w" "t" "m" 100
      [("to", "x"), ("message", "y"), ("extra", "z")] 0 "rid" [] =
      ([], none) := by
  constructor
  · decide
  · rw [scheduleFromRaw.eq_def,
      show validateRequest "t" "m" 100
        [("to", "x"), ("message", "y"), ("extra", "z")] = none by decide]

/-- C8, amended: `schedule_reminder` accepts a payload exactly when its
fields are `to` and `message` and nothing else (pydantic
`extra="forbid"`), both non-empty after stripping; any payload with an
extra field is rejected; and the stored payload is the stripped
`\x7bto, message\x7d` map — the `payload_json` column of the created row is
`json.dumps` of that two-field map, not of the raw input. -/
theorem c8_payload_fields_spec (raw : List (String × String)) (t m : String)
    (hkeys : ∀ kv ∈ raw, kv.1 = "to" ∨ kv.1 = "message")
    (ht : raw.lookup "to" = some t) (hm : raw.lookup "message" = some m)
    (htne : ¬ stripStr t = "") (hmne : ¬ stripStr m = "") :
    validatePayload raw = some { «to» := stripStr t, message := stripStr m } ∧
    (∀ raw' : List (String × String),
      (∃ kv ∈ raw', ¬ kv.1 = "to" ∧ ¬ kv.1 = "message") →
        validatePayload raw' = none) ∧
    (∀ (lead target now : ℚ) (wurl title msg rid : String) (s : Store),
      ¬ stripStr title = "" → ¬ stripStr msg = "" →
      now + lead < target →
      ((scheduleFromRaw lead wurl title msg target raw now rid s).2).map
          (fun r => r.payloadJson) =
        some (dumpsPayload { «to» := stripStr t, message := stripStr m })) := by
  have hall : raw.all (fun kv => decide (kv.1 = "to" ∨ kv.1 = "message")) =
      true := by
    rw [List.all_eq_true]
    intro kv hkv
    exact decide_eq_true (hkeys kv hkv)
  have hval : validatePayload raw =
      some { «to» := stripStr t, message := stripStr m } := by
    rw [validatePayload, if_pos hall, ht, hm]
    show (if stripStr t = "" ∨ stripStr m = "" then none
      else some ({ «to» := stripStr t, message := stripStr m } : Payload)) = _
    rw [if_neg]
    rintro (h | h)
    · exact htne h
    · exact hmne h
  refine ⟨hval, ?_, ?_⟩
  · rintro raw' ⟨kv, hkv, hne1, hne2⟩
    rw [validatePayload, if_neg]
    rw [List.all_eq_true]
    intro hall'
    rcases of_decide_eq_true (hall' kv hkv) with h | h
    · exact hne1 h
    · exact hne2 h
  · intro lead target now wurl title msg rid s htitle hmsg hlt
    have hreq : validateRequest title msg target raw =
        some { title := stripStr title, message := stripStr msg,
               target_time := target,
               payload := { «to» := stripStr t, message := stripStr m } } := by
      rw [validateRequest, if_neg, hval]
      · rfl
      · rintro (h | h)
        · exact htitle h
        · exact hmsg h
    simp only [scheduleFromRaw.eq_def, hreq]
    rw [scheduleReminder, if_neg (not_le.mpr hlt)]
    rfl

/-- C8 witness: a payload with exactly the fields `to` and `message`
(values carrying surrounding whitespace) is accepted and stored stripped;
the extra-field rejection applied to a concrete three-field payload. -/
theorem c8_payload_fields_spec_witness :
    validatePayload [("to", " x "), ("message", "y")] =
      some { «to» := stripStr " x ", message := stripStr "y" } ∧
    validatePayload [("to", "x"), ("message", "y"), ("extra", "z")] = none := by
  have h := c8_payload_fields_spec [("to", " x "), ("message", "y")] " x " "y"
    (by decide) (by decide) (by decide) (by decide) (by decide)
  exact ⟨h.1, h.2.1 [("to", "x"), ("message", "y"), ("extra", "z")]
    ⟨("extra", "z"), by decide, by decide, by decide⟩⟩

/-- C10 witness: the frame theorem applied to a record with a recorded
`last_error`: cancellation erases it and keeps every other field. -/
theorem c10_cancel_frame_witness :
    cancelHit "r1" c10sample = true ∧
    ({ c10sample with
         status := Status.cancelled
         updated_at := 3
         last_error := none } : ReminderRecord) ∈ (cancel "r1" 3 [c10sample]).1 :=
  ⟨by decide,
    (c10_cancel_frame "r1" 3 [c10sample] c10sample
      (List.mem_singleton.mpr rfl)).1 (by decide)⟩

end Reminders
